import Mathlib

/-!
Verification of the DCF/DOOM networking integration
(src/ipx/dcf_doom_integration.cpp) against its specification.

The embedding models the messaging core: the outbound/inbound frame
queues (struct DCFQueue), the driver facade (DCFNetworking::Send,
DCFNetworking::Receive), the delivery loop (DCFNetworking::PollLoop),
the liveness monitor (DCFNetworking::RedundancyLoop), shutdown
(DCFNetworking::Shutdown), argument parsing (DCFNetworking::ParseArgs)
and the host-facing interrupt handler (NetISR).

Modeling conventions, stated once:
- bytes are modeled as Nat; a serialized frame (a std::string produced
  by protobuf SerializeToString) is a List Nat;
- the protobuf codec (messages.pb.h, generated code outside this
  repository) is abstract: a Codec record with serialize and parse,
  and theorems that need losslessness take the round-trip law as a
  hypothesis, exactly as the spec assumes the fields round-trip
  losslessly through whichever external codec is bound in;
- the DCFMessage fields recipient and sender are written by Send as
  std::to_string of an int and read back by Receive with std::stoi;
  since std::to_string followed by std::stoi is the identity on int,
  these two fields are modeled directly as Int;
- time (std::chrono values compared after duration_cast to seconds)
  is modeled as Int, in the seconds granularity the code compares in.
-/

/-- DCF::DCFMessage as populated by Send (lines 90 to 94 of
dcf_doom_integration.cpp): payload bytes, recipient node id, sender
node id, timestamp. -/
structure DCFMessage where
  data : List Nat
  recipient : Int
  sender : Int
  timestamp : Int
deriving DecidableEq

/-- The external protobuf codec: SerializeToString and ParseFromString.
ParseFromString can fail, which the code checks at line 115; parse
failure is the DecodeError case of the spec. -/
structure Codec where
  serialize : DCFMessage → List Nat
  parse : List Nat → Option DCFMessage

/-- The codec round-trips losslessly: what the spec assumes of the
external encoder/decoder. -/
def Codec.Lossless (c : Codec) : Prop :=
  ∀ m : DCFMessage, c.parse (c.serialize m) = some m

/-- DCFQueue push as performed by Send (lines 100 to 104): an
unconditional std::queue push under the mutex. The head and tail
fields of DCFQueue, declared with the comment "For overflow checks",
are never read or written anywhere in the file, and no capacity bound
is checked on any path, so push is total and has no error result. -/
def queuePush (q : List (List Nat)) (f : List Nat) : List (List Nat) :=
  q ++ [f]

/-- The serialized frame that Send (lines 89 to 97) builds from its
arguments: data is the first len bytes of the buffer
(std::string(buffer, len)), recipient is the remote node, sender is
doomcom.consoleplayer, plus a timestamp. -/
def sendFrame (c : Codec) (consoleplayer ts : Int) (buffer : List Nat)
    (len : Nat) (remote_node : Int) : List Nat :=
  c.serialize ⟨buffer.take len, remote_node, consoleplayer, ts⟩

/-- DCFNetworking::Send (lines 89 to 105): build the DCFMessage,
serialize it, and push it onto the outbound queue. The function
returns void in the source: there is no failure path and no capacity
check, so the model returns only the new outbound queue. -/
def Send (c : Codec) (consoleplayer ts : Int) (buffer : List Nat)
    (len : Nat) (remote_node : Int) (outq : List (List Nat)) :
    List (List Nat) :=
  queuePush outq (sendFrame c consoleplayer ts buffer len remote_node)

/-- DCFNetworking::Receive (lines 108 to 123). The cv wait with a one
millisecond bound reduces, once the queue contents are fixed, to a
check for emptiness: if the inbound queue is empty Receive returns
false and writes nothing; otherwise the front frame is popped, parsed,
and on parse success the payload bytes are copied out (memcpy of
msg.data into the buffer), the length is set to the payload size and
the remote node to the parsed sender; on parse failure the popped
frame is discarded and Receive returns false, leaving the buffer,
length and remote node outputs untouched. Result tuple:
(returned bool, inbound queue after, buffer, len, remote_node). -/
def Receive (c : Codec) (inq : List (List Nat)) (buffer : List Nat)
    (len : Nat) (remote_node : Int) :
    Bool × List (List Nat) × List Nat × Nat × Int :=
  match inq with
  | [] => (false, [], buffer, len, remote_node)
  | serialized :: rest =>
    match c.parse serialized with
    | some msg => (true, rest, msg.data, msg.data.length, msg.sender)
    | none => (false, rest, buffer, len, remote_node)

/-- A concrete lossless codec used to instantiate theorems on concrete
inputs: length-prefixed payload followed by the three integer fields
in a sign-folded encoding. It stands in for the external protobuf
codec, of which only losslessness is assumed. -/
def intEnc (i : Int) : Nat :=
  if i < 0 then 2 * i.natAbs + 1 else 2 * i.natAbs

/-- Inverse of intEnc. -/
def intDec (n : Nat) : Int :=
  if n % 2 = 1 then -((n / 2 : Nat) : Int) else ((n / 2 : Nat) : Int)

/-- Serialization direction of the concrete test codec. -/
def testSerialize (m : DCFMessage) : List Nat :=
  m.data.length :: (m.data ++ [intEnc m.recipient, intEnc m.sender, intEnc m.timestamp])

/-- Parsing direction of the concrete test codec. -/
def testParse (l : List Nat) : Option DCFMessage :=
  match l with
  | [] => none
  | n :: rest =>
    match rest.drop n with
    | [r, s, t] => some ⟨rest.take n, intDec r, intDec s, intDec t⟩
    | _ => none

/-- The concrete test codec. -/
def testCodec : Codec :=
  ⟨testSerialize, testParse⟩

theorem intDec_intEnc (i : Int) : intDec (intEnc i) = i := by
  rcases lt_or_le i 0 with h | h
  · have he : intEnc i = 2 * i.natAbs + 1 := by simp [intEnc, h]
    rw [he]
    unfold intDec
    split <;> omega
  · have he : intEnc i = 2 * i.natAbs := by
      simp [intEnc, not_lt.mpr h]
    rw [he]
    unfold intDec
    split <;> omega

theorem testCodec_lossless : testCodec.Lossless := by
  intro m
  show testParse (testSerialize m) = some m
  unfold testParse testSerialize
  cases m with
  | mk d r s t =>
    simp only [List.drop_left, List.take_left]
    simp [intDec_intEnc]

/-- Configuration of the single gRPC channel that Init (lines 67 to
70) creates from host and port: the one stub through which PollLoop
performs every SendMessage call. -/
structure NetCfg where
  host : String
  port : Int
deriving DecidableEq

/-- The outbound half of one PollLoop iteration (lines 139 to 157):
pop the front of the outbound queue if nonempty and invoke
stub SendMessage on the single configured channel. The transport
trace records each observed call as (destination, frame), where the
destination is always the channel endpoint (host, port): the loop
never reads the peer table and performs no destination resolution.
If the queue is empty the iteration changes nothing (the code hits
continue). -/
def pollStep (cfg : NetCfg) (outq : List (List Nat))
    (trace : List ((String × Int) × List Nat)) :
    List (List Nat) × List ((String × Int) × List Nat) :=
  match outq with
  | [] => ([], trace)
  | f :: rest => (rest, trace ++ [((cfg.host, cfg.port), f)])

/-- An event of the running system: either a Send call enqueuing an
(already serialized) frame, or one PollLoop iteration. -/
inductive Ev where
  | send (f : List Nat)
  | poll
deriving DecidableEq

/-- System state for the delivery-loop claims: the outbound queue and
the trace of transport sends observed so far. -/
abbrev SysState := List (List Nat) × List ((String × Int) × List Nat)

/-- One event applied to the system state: a Send pushes onto the
outbound queue (lines 100 to 104); a poll runs one PollLoop
iteration. -/
def sysStep (cfg : NetCfg) (s : SysState) (e : Ev) : SysState :=
  match e with
  | Ev.send f => (queuePush s.1 f, s.2)
  | Ev.poll => pollStep cfg s.1 s.2

/-- Run a sequence of events from the initial state (empty queue,
empty transport trace). -/
def sysRun (cfg : NetCfg) (evs : List Ev) : SysState :=
  evs.foldl (sysStep cfg) ([], [])

/-- The frames passed to Send, in call order. -/
def sentFrames : List Ev → List (List Nat)
  | [] => []
  | Ev.send f :: rest => f :: sentFrames rest
  | Ev.poll :: rest => sentFrames rest

/-- Peer entry (struct DCFPeer, lines 50 to 56): address, port, active
flag, last heartbeat time. The gRPC stub member is a connection handle
that no modeled code path reads, so it is omitted. -/
structure Peer where
  address : String
  port : Int
  active : Bool
  last_heartbeat : Int
deriving DecidableEq

/-- One pass of the RedundancyLoop body over the peer table (lines 170
to 181), at current time now: a peer whose last_heartbeat lies more
than 10 seconds in the past has its active flag cleared (and a reroute
message is printed, with no further effect on state); otherwise the
loop sends a heartbeat frame through Send and then sets the peer
last_heartbeat to now. The heartbeat Send only pushes onto the
outbound queue and touches no peer state, so it is not part of the
peer-table transition. No branch ever sets active to true. -/
def redTick (now : Int) (peers : List Peer) : List Peer :=
  peers.map fun p =>
    if now - p.last_heartbeat > 10 then { p with active := false }
    else { p with last_heartbeat := now }

/-- Iterated RedundancyLoop passes at the given sequence of times. The
loop sleeps 5 seconds between passes, so consecutive times differ by
about 5. -/
def redRun (times : List Int) (peers : List Peer) : List Peer :=
  times.foldl (fun ps t => redTick t ps) peers

/-- Engine state relevant to Shutdown (lines 80 to 86): the atomic
running flag and the joinability of the two worker threads (a thread
is joinable until it has been joined). Shutdown touches nothing else:
in particular it releases no transport resource (channel and stub are
untouched). -/
structure EngineState where
  running : Bool
  pollJoinable : Bool
  redJoinable : Bool
deriving DecidableEq

/-- The observable actions Shutdown can perform: joining the poll
thread and joining the redundancy thread. -/
inductive ShutdownAct where
  | joinPoll
  | joinRed
deriving DecidableEq

/-- DCFNetworking::Shutdown (lines 80 to 86): clear running, then join
each thread only if it is joinable (a joined thread is no longer
joinable). Returns the new state and the list of join actions
performed. -/
def Shutdown (s : EngineState) : EngineState × List ShutdownAct :=
  (⟨false, false, false⟩,
    (if s.pollJoinable then [ShutdownAct.joinPoll] else []) ++
      (if s.redJoinable then [ShutdownAct.joinRed] else []))

/-- The values of CMD_SEND and CMD_GET from the original DOOM network
header doomnet.h (outside this repository); only their distinctness
matters here. -/
def CMD_SEND : Int := 1

/-- The CMD_GET command code from doomnet.h. -/
def CMD_GET : Int := 2

/-- The doomcom control block fields that NetISR (lines 220 to 231)
reads and writes. -/
structure Doomcom where
  command : Int
  remotenode : Int
  datalength : Nat
  data : List Nat
  consoleplayer : Int
deriving DecidableEq

/-- NetISR (lines 220 to 231): on CMD_SEND, forward the doomcom data
to Send; on CMD_GET, call Receive on the doomcom buffer; when Receive
returns true, store the received length in doomcom.datalength (the
payload and remote node were already written through the buffer and
the remotenode reference); when Receive returns false, set
doomcom.remotenode to -1 and leave datalength and data unchanged.
Returns the new doomcom and the two queues. -/
def NetISR (c : Codec) (ts : Int) (dc : Doomcom)
    (outq inq : List (List Nat)) :
    Doomcom × List (List Nat) × List (List Nat) :=
  if dc.command = CMD_SEND then
    (dc, Send c dc.consoleplayer ts dc.data dc.datalength dc.remotenode outq, inq)
  else if dc.command = CMD_GET then
    match Receive c inq dc.data dc.datalength dc.remotenode with
    | (true, inq2, buf, len, rn) =>
      ({ dc with data := buf, datalength := len, remotenode := rn }, outq, inq2)
    | (false, inq2, _, _, _) =>
      ({ dc with remotenode := -1 }, outq, inq2)
  else (dc, outq, inq)

theorem sysFoldl_inv (cfg : NetCfg) (evs : List Ev) :
    ∀ s : SysState,
      ((evs.foldl (sysStep cfg) s).2.map Prod.snd) ++ (evs.foldl (sysStep cfg) s).1
        = s.2.map Prod.snd ++ s.1 ++ sentFrames evs := by
  induction evs with
  | nil => intro s; simp [sentFrames]
  | cons e evs ih =>
    intro s
    cases e with
    | send f =>
      rw [List.foldl_cons]
      rw [ih (sysStep cfg s (Ev.send f))]
      simp [sysStep, queuePush, sentFrames, List.append_assoc]
    | poll =>
      rw [List.foldl_cons]
      obtain ⟨q, tr⟩ := s
      cases q with
      | nil =>
        rw [ih (sysStep cfg ([], tr) Ev.poll)]
        simp [sysStep, pollStep, sentFrames]
      | cons f rest =>
        rw [ih (sysStep cfg (f :: rest, tr) Ev.poll)]
        simp [sysStep, pollStep, sentFrames, List.append_assoc]

theorem pollDrain (cfg : NetCfg) :
    ∀ (n : Nat) (q : List (List Nat)) (tr : List ((String × Int) × List Nat)),
      q.length ≤ n →
      (List.replicate n Ev.poll).foldl (sysStep cfg) (q, tr)
        = ([], tr ++ q.map (fun f => ((cfg.host, cfg.port), f))) := by
  intro n
  induction n with
  | zero =>
    intro q tr h
    have hq : q = [] := List.length_eq_zero.mp (Nat.le_zero.mp h)
    subst hq
    simp
  | succ n ih =>
    intro q tr h
    rw [List.replicate_succ, List.foldl_cons]
    cases q with
    | nil =>
      have := ih [] tr (by simp)
      simpa [sysStep, pollStep] using this
    | cons f rest =>
      have hr : rest.length ≤ n := by
        simp only [List.length_cons] at h
        omega
      have := ih rest (tr ++ [((cfg.host, cfg.port), f)]) hr
      simp only [sysStep, pollStep]
      rw [this]
      simp [List.append_assoc]

/-- C1: for every sequence of Send calls interleaved with PollLoop
iterations, once enough further PollLoop iterations have run to drain
the outbound queue, the frames observed at the transport binding
(stub SendMessage calls) are exactly the frames passed to Send, each
exactly once, in the FIFO order of the Send calls, and the outbound
queue is empty. -/
theorem c1_fifo_exactly_once (cfg : NetCfg) (evs : List Ev) (n : Nat)
    (h : (sysRun cfg evs).1.length ≤ n) :
    ((sysRun cfg (evs ++ List.replicate n Ev.poll)).2.map Prod.snd
        = sentFrames evs)
    ∧ (sysRun cfg (evs ++ List.replicate n Ev.poll)).1 = [] := by
  have hinv := sysFoldl_inv cfg evs ([], [])
  simp only [List.map_nil, List.nil_append] at hinv
  have hdrain := pollDrain cfg n (sysRun cfg evs).1 (sysRun cfg evs).2 h
  have heta : ((sysRun cfg evs).1, (sysRun cfg evs).2) = sysRun cfg evs := rfl
  rw [heta] at hdrain
  have hrun : sysRun cfg (evs ++ List.replicate n Ev.poll)
      = ([], (sysRun cfg evs).2
            ++ (sysRun cfg evs).1.map (fun f => ((cfg.host, cfg.port), f))) := by
    unfold sysRun
    rw [List.foldl_append]
    exact hdrain
  rw [hrun]
  constructor
  · have hmm : ((sysRun cfg evs).1.map
        (fun f => ((cfg.host, cfg.port), f))).map Prod.snd
        = (sysRun cfg evs).1 := by
      rw [List.map_map]
      simp
    rw [List.map_append, hmm]
    exact hinv
  · rfl

/-- C1 witness: three Send calls with one interleaved poll, then two
more polls; the transport trace is the three frames in send order and
the queue is drained. -/
theorem c1_fifo_exactly_once_witness :
    ((sysRun ⟨"localhost", 50051⟩
        [Ev.send [1], Ev.send [2], Ev.poll, Ev.send [3]]).1.length ≤ 2)
    ∧ (((sysRun ⟨"localhost", 50051⟩
          ([Ev.send [1], Ev.send [2], Ev.poll, Ev.send [3]]
            ++ List.replicate 2 Ev.poll)).2.map Prod.snd
        = sentFrames [Ev.send [1], Ev.send [2], Ev.poll, Ev.send [3]])
      ∧ (sysRun ⟨"localhost", 50051⟩
          ([Ev.send [1], Ev.send [2], Ev.poll, Ev.send [3]]
            ++ List.replicate 2 Ev.poll)).1 = []) :=
  ⟨by decide,
    c1_fifo_exactly_once ⟨"localhost", 50051⟩
      [Ev.send [1], Ev.send [2], Ev.poll, Ev.send [3]] 2 (by decide)⟩

/-- C2, evaluation at the failing input: DCFQueue push, as invoked by
Send, enqueues unconditionally. Against a queue already holding 600
frames, Send still appends the new frame behind the existing ones and
the queue grows to 601: there is no capacity bound and no QueueFull
result anywhere in the code (the Send return type is void and the
head and tail fields meant for overflow checks are never used). -/
theorem c2_push_beyond_capacity_succeeds :
    Send testCodec 0 0 [1] 1 2 (List.replicate 600 [0])
      = List.replicate 600 [0] ++ [sendFrame testCodec 0 0 [1] 1 2]
    ∧ (Send testCodec 0 0 [1] 1 2 (List.replicate 600 [0])).length = 601 := by
  constructor
  · rfl
  · show (List.replicate 600 [0] ++ [sendFrame testCodec 0 0 [1] 1 2]).length = 601
    rw [List.length_append, List.length_replicate]
    rfl

/-- C3, evaluation at the failing input: a single configured peer that
never responds to anything, with the RedundancyLoop running at its 5
second cadence (passes at times 0, 5, 10, 15, 20 with the peer
created at time 0). Because the loop overwrites last_heartbeat with
the current time whenever it SENDS a heartbeat, the elapsed time seen
at each pass never exceeds 5 seconds, the 10 second demotion branch is
unreachable, and the silent peer is still ACTIVE at time 20. -/
theorem c3_silent_peer_never_demoted :
    redRun [0, 5, 10, 15, 20] [⟨"2", 50051, true, 0⟩]
      = [⟨"2", 50051, true, 20⟩] := by
  decide

/-- C4, evaluation at the failing input: a frame addressed to peer 2
while peer 2 is INACTIVE and peer 3 is ACTIVE. The PollLoop iteration
that dequeues it invokes SendMessage on the single configured channel
endpoint (localhost, 50051) without reading the peer table: the
observed transport destination is the channel endpoint, not peer 3,
and no NoRoute failure exists anywhere in the loop (its result type
has no error case). -/
theorem c4_no_reroute_at_transport :
    pollStep ⟨"localhost", 50051⟩
        [testCodec.serialize ⟨[1, 2, 3], 2, 0, 7⟩] []
      = ([], [(("localhost", 50051),
               testCodec.serialize ⟨[1, 2, 3], 2, 0, 7⟩)])
    ∧ (("localhost", (50051 : Int)) : String × Int) ≠ ("3", 50052) := by
  constructor
  · rfl
  · decide

/-- C5 counterexample: peer 2 is INACTIVE (active flag false) and a
heartbeat frame from peer 2 is then observed by Receive (which
returns true for it), yet the next Liveness Monitor pass leaves the
peer INACTIVE: the monitor has no branch that sets the active flag
back to true, so the peer does not transition back to ACTIVE. -/
theorem c5_reactivation_counterexample :
    (Receive testCodec
        [testCodec.serialize ⟨[72, 69, 65, 82, 84, 66, 69, 65, 84], 0, 2, 0⟩]
        [] 0 0).1 = true
    ∧ redRun [3] [⟨"2", 50051, false, 0⟩] = [⟨"2", 50051, false, 3⟩] := by
  constructor
  · rfl
  · decide

/-- C5 amended: once a peer is INACTIVE it stays INACTIVE forever: no
pass of the Liveness Monitor, at any sequence of times, sets the
active flag of a peer back to true (no code path observes heartbeat
responses, and neither branch of the RedundancyLoop body writes true
into the active flag). -/
theorem c5_inactive_is_permanent (times : List Int) (peers : List Peer)
    (i : Nat) (h : (peers.get? i).map Peer.active = some false) :
    ((redRun times peers).get? i).map Peer.active = some false := by
  induction times generalizing peers with
  | nil => exact h
  | cons t ts ih =>
    have hstep : ((redTick t peers).get? i).map Peer.active = some false := by
      unfold redTick
      rw [List.get?_map]
      cases hq : peers.get? i with
      | none => rw [hq] at h; simp at h
      | some p =>
        rw [hq] at h
        simp only [Option.map_some'] at h ⊢
        split
        · rfl
        · exact h
    exact ih (redTick t peers) hstep

/-- C5 amended witness: a peer inactive at time 0 is still inactive
after monitor passes at times 5 and 10. -/
theorem c5_inactive_is_permanent_witness :
    ((([⟨"2", 50051, false, 0⟩] : List Peer).get? 0).map Peer.active
        = some false)
    ∧ ((redRun [5, 10] [⟨"2", 50051, false, 0⟩]).get? 0).map Peer.active
        = some false :=
  ⟨by decide, c5_inactive_is_permanent [5, 10] [⟨"2", 50051, false, 0⟩] 0 (by decide)⟩

/-- C6: a malformed inbound frame, one the codec cannot decode, is
popped and discarded by Receive, which reports failure by value
(returns false, no exception path exists) and leaves the caller
buffer, length and remote node untouched; the rest of the inbound
queue is preserved, so processing continues with subsequent frames. -/
theorem c6_decode_error_discarded (c : Codec) (bad : List Nat)
    (rest : List (List Nat)) (b : List Nat) (l : Nat) (r : Int)
    (h : c.parse bad = none) :
    Receive c (bad :: rest) b l r = (false, rest, b, l, r) := by
  simp [Receive, h]

/-- C6 witness: the empty byte string is undecodable for the concrete
codec and is discarded with a false return, keeping a following frame
queued. -/
theorem c6_decode_error_discarded_witness :
    testCodec.parse [] = none
    ∧ Receive testCodec [[], [9]] [7] 1 0 = (false, [[9]], [7], 1, 0) :=
  ⟨rfl, c6_decode_error_discarded testCodec [] [[9]] [7] 1 0 rfl⟩

/-- C7: Shutdown is idempotent. The first call clears the running flag
and joins each thread that is joinable, leaving both threads joined;
the second call starts from that terminal state, finds neither thread
joinable, performs no join action at all (and Shutdown touches no
transport resource on any call), and leaves the state exactly equal to
the state after the first call. -/
theorem c7_shutdown_idempotent (s : EngineState) :
    (Shutdown (Shutdown s).1).1 = (Shutdown s).1
    ∧ (Shutdown (Shutdown s).1).2 = [] := by
  constructor
  · rfl
  · rfl

/-- C8: round-trip. A frame built by node A Send from a buffer, a
length within the buffer, and destination node B, carried unmodified
by the transport into node B inbound queue, is yielded by node B
Receive with payload bytes equal to the bytes passed to Send (the
first len bytes of the buffer), the correct length, and remote_node
equal to the console player id recorded by A at Send time. Holds for
every lossless codec. -/
theorem c8_round_trip (c : Codec) (hc : c.Lossless) (cpA ts : Int)
    (buffer : List Nat) (len : Nat) (rnB : Int)
    (rest : List (List Nat)) (b0 : List Nat) (l0 : Nat) (r0 : Int)
    (hlen : len ≤ buffer.length) :
    Receive c (sendFrame c cpA ts buffer len rnB :: rest) b0 l0 r0
      = (true, rest, buffer.take len, len, cpA) := by
  have hparse := hc ⟨buffer.take len, rnB, cpA, ts⟩
  simp [Receive, sendFrame, hparse, List.length_take, Nat.min_eq_left hlen]

/-- C8 witness: payload bytes 10, 20 out of a 3 byte buffer sent by
node 4 to node 5 are received intact with sender 4. -/
theorem c8_round_trip_witness :
    (2 ≤ ([10, 20, 30] : List Nat).length)
    ∧ Receive testCodec [sendFrame testCodec 4 9 [10, 20, 30] 2 5] [] 0 0
        = (true, [], [10, 20], 2, 4) :=
  ⟨by decide,
    c8_round_trip testCodec testCodec_lossless 4 9 [10, 20, 30] 2 5 [] [] 0 0
      (by decide)⟩

/-- C9: when the inbound queue is empty through the short bounded wait
of Receive, Receive returns false leaving the caller buffer, length
and remote node exactly as passed in, and NetISR in its CMD_GET branch
maps that false return to the no-packet indication by setting
doomcom.remotenode to -1, leaving datalength and the data buffer
unchanged. -/
theorem c9_receive_none_maps_to_invalid (c : Codec) (ts : Int)
    (dc : Doomcom) (outq : List (List Nat)) (hcmd : dc.command = CMD_GET) :
    Receive c [] dc.data dc.datalength dc.remotenode
      = (false, [], dc.data, dc.datalength, dc.remotenode)
    ∧ NetISR c ts dc outq [] = ({ dc with remotenode := -1 }, outq, []) := by
  constructor
  · rfl
  · simp [NetISR, hcmd, CMD_GET, CMD_SEND, Receive]

/-- C9 witness: a concrete doomcom block issuing CMD_GET against an
empty inbound queue. -/
theorem c9_receive_none_maps_to_invalid_witness :
    ((⟨2, 5, 3, [9], 0⟩ : Doomcom).command = CMD_GET)
    ∧ (Receive testCodec [] (⟨2, 5, 3, [9], 0⟩ : Doomcom).data
          (⟨2, 5, 3, [9], 0⟩ : Doomcom).datalength
          (⟨2, 5, 3, [9], 0⟩ : Doomcom).remotenode
        = (false, [], (⟨2, 5, 3, [9], 0⟩ : Doomcom).data,
            (⟨2, 5, 3, [9], 0⟩ : Doomcom).datalength,
            (⟨2, 5, 3, [9], 0⟩ : Doomcom).remotenode)
      ∧ NetISR testCodec 0 (⟨2, 5, 3, [9], 0⟩ : Doomcom) [[4]] []
          = ({ (⟨2, 5, 3, [9], 0⟩ : Doomcom) with remotenode := -1 },
              [[4]], [])) :=
  ⟨by decide,
    c9_receive_none_maps_to_invalid testCodec 0 ⟨2, 5, 3, [9], 0⟩ [[4]]
      (by decide)⟩

/-- Decimal value of a list of digit characters, most significant
first. -/
def digitsVal (l : List Char) : Nat :=
  l.foldl (fun a c => a * 10 + (c.toNat - 48)) 0

/-- std::stoi as applied by ParseArgs and Receive: an optional leading
minus sign followed by decimal digits, consumed up to the first
non-digit character. (On strings with no leading digits std::stoi
raises an exception; such inputs are outside the modeled claims, so
they are mapped to 0 here.) -/
def stoi (s : String) : Int :=
  match s.data with
  | [] => 0
  | c :: rest =>
    if c = '-' then -((digitsVal (rest.takeWhile Char.isDigit) : Nat) : Int)
    else ((digitsVal ((c :: rest).takeWhile Char.isDigit) : Nat) : Int)

/-- The configuration state that ParseArgs (lines 126 to 137) builds:
the engine port, host and transport fields and the peer list, with
port initialized to 0 (line 191), host and transport to the empty
string. -/
structure ParseState where
  port : Int
  host : String
  transport : String
  peers : List Peer
deriving DecidableEq

/-- The ParseArgs loop (lines 128 to 133). Every index from 1 upward
is examined as an option name; an option reads its value from the
following argument WITHOUT skipping it, so that value is itself
examined as an option name on the next iteration, exactly as the
index-by-one for loop does. Reading argv at index argc (the value of
an option in final position) is modeled as the empty string. A
"-peer" argument appends a DCFPeer built with the CURRENT value of
the port field, the active flag true and the creation time (taken as
0) as last heartbeat; peer entries are never revisited. -/
def parseGo : List String → ParseState → ParseState
  | [], st => st
  | a :: rest, st =>
    if a = "-port" then parseGo rest { st with port := stoi (rest.headD "") }
    else if a = "-host" then parseGo rest { st with host := rest.headD "" }
    else if a = "-transport" then
      parseGo rest { st with transport := rest.headD "" }
    else if a = "-peer" then
      parseGo rest
        { st with peers := st.peers ++ [⟨rest.headD "", st.port, true, 0⟩] }
    else parseGo rest st

/-- Line 134: after the loop, a port still equal to 0 is replaced by
the default 50051. Only the engine port field is touched. -/
def defaultPort (st : ParseState) : ParseState :=
  if st.port = 0 then { st with port := 50051 } else st

/-- Line 135: an empty host becomes localhost. -/
def defaultHost (st : ParseState) : ParseState :=
  if st.host = "" then { st with host := "localhost" } else st

/-- Line 136: an empty transport becomes grpc. -/
def defaultTransport (st : ParseState) : ParseState :=
  if st.transport = "" then { st with transport := "grpc" } else st

/-- DCFNetworking::ParseArgs (lines 126 to 137): run the loop from
index 1 (the head of argv is the program name), then apply the three
defaulting steps. Already-created peer entries are not updated by the
defaulting. -/
def parseArgs (argv : List String) : ParseState :=
  defaultTransport (defaultHost (defaultPort (parseGo (argv.drop 1) ⟨0, "", "", []⟩)))

theorem parseGo_cons (a : String) (rest : List String) (st : ParseState) :
    parseGo (a :: rest) st =
      if a = "-port" then parseGo rest { st with port := stoi (rest.headD "") }
      else if a = "-host" then parseGo rest { st with host := rest.headD "" }
      else if a = "-transport" then
        parseGo rest { st with transport := rest.headD "" }
      else if a = "-peer" then
        parseGo rest
          { st with peers := st.peers ++ [⟨rest.headD "", st.port, true, 0⟩] }
      else parseGo rest st := rfl

theorem parseGo_mem_peers (l : List String) :
    ∀ (st : ParseState) (p : Peer), p ∈ st.peers → p ∈ (parseGo l st).peers := by
  induction l with
  | nil => intro st p hp; exact hp
  | cons a rest ih =>
    intro st p hp
    rw [parseGo_cons]
    split_ifs with h1 h2 h3 h4
    · exact ih _ _ hp
    · exact ih _ _ hp
    · exact ih _ _ hp
    · exact ih _ _ (List.mem_append_left _ hp)
    · exact ih _ _ hp

theorem parseGo_peer_before_port (addr : String) (post : List String) :
    ∀ (pre : List String) (st : ParseState), "-port" ∉ pre →
      (⟨addr, st.port, true, 0⟩ : Peer)
        ∈ (parseGo (pre ++ "-peer" :: addr :: post) st).peers := by
  intro pre
  induction pre with
  | nil =>
    intro st _
    have hstep : parseGo ("-peer" :: addr :: post) st
        = parseGo (addr :: post)
            { st with peers := st.peers ++ [⟨addr, st.port, true, 0⟩] } := by
      rw [parseGo_cons]
      rw [if_neg (by decide), if_neg (by decide), if_neg (by decide),
        if_pos rfl]
      rfl
    rw [List.nil_append, hstep]
    apply parseGo_mem_peers
    exact List.mem_append_right _ (List.mem_singleton.mpr rfl)
  | cons a pre ih =>
    intro st hmem
    have ha : ¬ a = "-port" := fun h => hmem (by rw [h]; exact List.mem_cons_self _ _)
    have hpre : "-port" ∉ pre := fun h => hmem (List.mem_cons_of_mem _ h)
    rw [List.cons_append, parseGo_cons]
    split_ifs with h1 h2 h3
    · exact ih _ hpre
    · exact ih _ hpre
    · exact ih _ hpre
    · exact ih _ hpre

theorem defaults_peers (st : ParseState) :
    (defaultTransport (defaultHost (defaultPort st))).peers = st.peers := by
  unfold defaultTransport defaultHost defaultPort
  split_ifs <;> rfl

theorem defaults_port_ne_zero (st : ParseState) :
    (defaultTransport (defaultHost (defaultPort st))).port ≠ 0 := by
  have h1 : (defaultPort st).port ≠ 0 := by
    unfold defaultPort
    split_ifs with h
    · show (50051 : Int) ≠ 0
      decide
    · exact h
  have h2 : (defaultHost (defaultPort st)).port = (defaultPort st).port := by
    unfold defaultHost
    split_ifs <;> rfl
  have h3 : (defaultTransport (defaultHost (defaultPort st))).port
      = (defaultHost (defaultPort st)).port := by
    unfold defaultTransport
    split_ifs <;> rfl
  rw [h3, h2]
  exact h1

/-- C10: in every argument list in which a -peer entry precedes the
-port option, that peer is recorded with the then-current port value
0: the peer list of the parse result contains the peer with port 0
(not the port supplied later and not the 50051 default), while the
engine port field itself ends up nonzero (the supplied value, or
50051 once the default is applied after the loop); peer entries are
never updated afterwards. -/
theorem c10_peer_before_port_gets_port_zero (pre post : List String)
    (addr : String) (h : "-port" ∉ pre) :
    (⟨addr, 0, true, 0⟩ : Peer)
        ∈ (parseArgs ("doom" :: (pre ++ "-peer" :: addr :: post))).peers
    ∧ (parseArgs ("doom" :: (pre ++ "-peer" :: addr :: post))).port ≠ 0 := by
  unfold parseArgs
  constructor
  · rw [defaults_peers]
    exact parseGo_peer_before_port addr post pre ⟨0, "", "", []⟩ h
  · exact defaults_port_ne_zero _

/-- C10 witness: in the argument list (doom -peer 9 -port 50052) the
peer 9 is recorded with port 0 although the engine port ends up
50052. -/
theorem c10_peer_before_port_gets_port_zero_witness :
    ("-port" ∉ ([] : List String))
    ∧ ((⟨"9", 0, true, 0⟩ : Peer)
          ∈ (parseArgs ["doom", "-peer", "9", "-port", "50052"]).peers
        ∧ (parseArgs ["doom", "-peer", "9", "-port", "50052"]).port ≠ 0) :=
  ⟨by simp,
    c10_peer_before_port_gets_port_zero [] ["-port", "50052"] "9" (by simp)⟩
